import Mathlib

set_option autoImplicit false

namespace AgentManager

/-! Shallow embedding of the agent-manager orchestrator backend.

Sources embedded (paths relative to the repository root):
- backend/src/orchestrator/plan_to_graph.rs   (build_graph_from_plan)
- backend/src/orchestrator/plan_utils.rs      (find_start_step_id)
- backend/src/orchestrator/graph_executor.rs  (extract_step_results_from_context,
                                               execute_plan_inner, execute_plan_with_config)
- backend/src/orchestrator/tasks.rs           (RunGeminiTask::run, CreateFileTask::run)
- backend/src/orchestrator/plan_optimizer.rs  (estimate_token_usage, estimate_execution_time)
- backend/src/orchestrator/primitives.rs      (internal_run_planner, build_meta_prompt)
- backend/src/orchestrator/config.rs          (validate_and_apply_config_update)
- backend/src/api/orchestrator.rs             (orchestrate SSE event stream, update_config)
- backend/src/chat/bridge_session.rs          (send_message response dispatch)
- backend/src/error.rs                        (AppError)

The Plan data type and its validator live in backend/src/orchestrator/plan_types.rs,
which is declared in mod.rs but absent from the source snapshot; the struct shapes are
reconstructed from their uses (serde construction sites, tests) and `Plan.validate` is
modelled from the specification, as marked below.

Machine integers: step counts, lengths and token counts are `usize`/`u32` values far
below any overflow boundary in every code path and are modelled as `Nat`.
The one floating-point computation (`plan_optimizer.rs` line 26) is modelled exactly,
see `f64Mul13Floor` below. -/

/-! ## Execution context (graph_flow::Context)

The graph-flow `Context` is a concurrent string-keyed map; set overwrites, get returns
the current binding. Modelled as an association list with prepend-overwrite set and
first-match get. -/

abbrev Context := List (String × String)

def ctxGet : Context → String → Option String
  | [], _ => none
  | (k2, v) :: rest, k => if k2 = k then some v else ctxGet rest k

def ctxSet (ctx : Context) (k v : String) : Context := (k, v) :: ctx

instance {ε α : Type} [DecidableEq ε] [DecidableEq α] : DecidableEq (Except ε α) :=
  fun a b =>
    match a, b with
    | .ok x, .ok y =>
      if h : x = y then .isTrue (by rw [h])
      else .isFalse fun hc => h (Except.ok.inj hc)
    | .error x, .error y =>
      if h : x = y then .isTrue (by rw [h])
      else .isFalse fun hc => h (Except.error.inj hc)
    | .ok _, .error _ => .isFalse fun hc => Except.noConfusion hc
    | .error _, .ok _ => .isFalse fun hc => Except.noConfusion hc

/-! ## Plan data model (plan_types.rs, reconstructed)

`StepParams` fields are taken from their construction and use sites:
`params.prompt`, `params.filename`, `params.content_from` in plan_to_graph.rs and
the executor tests; `content` is the literal-content source named by the
specification (3 Params by task). -/

structure StepParams where
  prompt : Option String := none
  filename : Option String := none
  content_from : Option String := none
  content : Option String := none
deriving Repr, DecidableEq

structure Step where
  id : String
  task : String
  params : StepParams
  dependencies : List String
deriving Repr, DecidableEq

structure Plan where
  version : String
  steps : List Step
deriving Repr, DecidableEq

/-! ## AppError (error.rs) -/

inductive AppError where
  | agentNotFound (msg : String)
  | invalidAgentConfig (msg : String)
  | persistence (msg : String)
  | executionError (msg : String)
  | fileNotFound (msg : String)
  | invalidPath (msg : String)
  | permissionDenied (msg : String)
  | notADirectory (msg : String)
  | internal (msg : String)
  | invalidPlan (msg : String)
  | planExecutionFailed (msg : String)
  | taskExecutionFailed (msg : String)
  | sessionError (msg : String)
  | graphError (msg : String)
  | planningFailed (msg : String)
  | timeout (msg : String)
deriving Repr, DecidableEq

/-- Display implementation of AppError (the derive(Error) format strings in error.rs). -/
def appErrorMessage : AppError → String
  | .agentNotFound m => "Agent not found: " ++ m
  | .invalidAgentConfig m => "Invalid agent configuration: " ++ m
  | .persistence m => "Persistence error: " ++ m
  | .executionError m => "Execution error: " ++ m
  | .fileNotFound m => "File not found: " ++ m
  | .invalidPath m => "Invalid path: " ++ m
  | .permissionDenied m => "Permission denied: " ++ m
  | .notADirectory m => "Path is not a directory: " ++ m
  | .internal m => "Internal server error: " ++ m
  | .invalidPlan m => "Invalid plan: " ++ m
  | .planExecutionFailed m => "Plan execution failed: " ++ m
  | .taskExecutionFailed m => "Task execution failed: " ++ m
  | .sessionError m => "Session error: " ++ m
  | .graphError m => "Graph error: " ++ m
  | .planningFailed m => "Planning failed: " ++ m
  | .timeout m => "Timeout: " ++ m

/-! ## Filename hygiene predicates (plan_to_graph.rs lines 74-86, tasks.rs lines 256-269) -/

/-- Rust `char::is_control`: the Unicode Cc category, U+0000..U+001F and U+007F..U+009F. -/
def charIsControl (c : Char) : Bool :=
  c.toNat < 0x20 || (0x7f ≤ c.toNat && c.toNat ≤ 0x9f)

/-- Rust `s.starts_with(c)` for a char pattern, on the character list. -/
def startsWithChar (c : Char) (s : String) : Bool :=
  match s.data with
  | [] => false
  | c2 :: _ => c2 == c

/-- Rust check: filename contains ".." as a substring, or starts with a slash. -/
def filenameTraversal (f : String) : Bool :=
  decide ("..".data <:+: f.data) || startsWithChar (Char.ofNat 47) f

/-- Rust check: filename contains a NUL character or any control character. -/
def filenameControl (f : String) : Bool :=
  f.data.contains (Char.ofNat 0) || f.data.any charIsControl

def filenameBad (f : String) : Bool := filenameTraversal f || filenameControl f

/-! ## Plan validator

Modelled from the spec: `Plan::validate` lives in plan_types.rs, which is declared in
orchestrator/mod.rs but absent from the source snapshot. The checks below follow the
specification of the validator, rules (a)-(g) in order: (a) non-empty steps;
(b) unique, non-empty IDs; (c) known task kind and required params present
(run_gemini: prompt non-empty and at most 10000 chars after trim; create_file:
filename present and exactly one content source); (d) dependency IDs resolve within
the plan; (e) acyclicity of the dependency relation (the spec prescribes a DFS with
white/gray/black marking; the model decides the same acyclicity property by
topological elimination); (f) a create_file step using content_from = "X.output" must
list X among its dependencies; (g) filename hygiene. -/

def idsOf (steps : List Step) : List String := steps.map Step.id

def allDistinct : List String → Bool
  | [] => true
  | x :: xs => !(xs.contains x) && allDistinct xs

/-- Rust `str::trim`, on the character list. -/
def trimChars (s : String) : List Char :=
  ((s.data.dropWhile Char.isWhitespace).reverse.dropWhile Char.isWhitespace).reverse

/-- Drop the trailing ".output" of a context reference, leaving the step ID. -/
def stripOutputSuffix (s : String) : String :=
  String.mk (s.data.take (s.data.length - ".output".data.length))

/-- Rule (c): known task kind with its required params present. -/
def validTaskParams (s : Step) : Bool :=
  if s.task == "run_gemini" then
    match s.params.prompt with
    | some p => !(trimChars p).isEmpty && decide ((trimChars p).length ≤ 10000)
    | none => false
  else if s.task == "create_file" then
    s.params.filename.isSome &&
      (s.params.content_from.isSome != s.params.content.isSome)
  else false

/-- Rule (d): every dependency ID names a step of the plan. -/
def depsResolve (steps : List Step) : Bool :=
  steps.all fun s => s.dependencies.all fun d => (idsOf steps).contains d

/-- A step is removable once all of its dependencies have been removed. -/
def depsRemovable (removed : List String) (s : Step) : Bool :=
  s.dependencies.all fun d => removed.contains d

/-- Topological elimination: repeatedly remove steps whose dependencies are all
removed; the dependency relation is acyclic iff every step gets removed. -/
def kahnGo : Nat → List String → List Step → Bool
  | 0, _, remaining => remaining.isEmpty
  | fuel+1, removed, remaining =>
    let removable := remaining.filter (depsRemovable removed)
    if removable.isEmpty then remaining.isEmpty
    else kahnGo fuel (removed ++ idsOf removable)
      (remaining.filter fun s => !(depsRemovable removed s))

/-- Rule (e): the dependency relation is acyclic. -/
def acyclicSteps (steps : List Step) : Bool := kahnGo steps.length [] steps

/-- Rule (f): content_from = "X.output" requires X among the declared dependencies. -/
def contentFromConsistent (s : Step) : Bool :=
  match s.params.content_from with
  | none => true
  | some r => decide (".output".data <:+ r.data)
      && s.dependencies.contains (stripOutputSuffix r)

/-- Rule (g): filename hygiene for create_file steps. -/
def filenameHygieneOk (s : Step) : Bool :=
  if s.task == "create_file" then
    match s.params.filename with
    | some f => !(filenameBad f)
    | none => true
  else true

/-- Modelled from the spec: `Plan::validate` (see the section comment above). -/
def Plan.validate (plan : Plan) : Except String Unit :=
  if plan.steps.isEmpty then .error "plan has no steps"
  else if !(allDistinct (idsOf plan.steps) && plan.steps.all fun s => !(s.id == "")) then
    .error "step ids must be unique and non-empty"
  else if !(plan.steps.all validTaskParams) then
    .error "invalid task name or missing required params"
  else if !(depsResolve plan.steps) then
    .error "dependency does not name a step in the plan"
  else if !(acyclicSteps plan.steps) then
    .error "dependency cycle detected"
  else if !(plan.steps.all fun s => !(s.task == "create_file") || contentFromConsistent s) then
    .error "content_from must reference a declared dependency"
  else if !(plan.steps.all filenameHygieneOk) then
    .error "invalid filename"
  else .ok ()

/-! ## Plan to graph (plan_to_graph.rs, plan_utils.rs) -/

inductive TaskSpec where
  | runGemini (step_id prompt : String)
  | createFile (step_id filename : String) (content_from : Option String)
deriving Repr, DecidableEq

structure GraphModel where
  id : String
  tasks : List (String × TaskSpec)
  edges : List (String × String)
  start : String
deriving Repr, DecidableEq

/-- HashMap::insert (task_map in build_graph_from_plan): overwrite on duplicate key. -/
def insertTask (m : List (String × TaskSpec)) (k : String) (t : TaskSpec) :
    List (String × TaskSpec) :=
  if m.any fun p => p.1 == k then m.map fun p => if p.1 == k then (k, t) else p
  else m ++ [(k, t)]

/-- Per-step task construction of build_graph_from_plan (lines 51-105). -/
def buildTaskForStep (s : Step) : Except AppError TaskSpec :=
  if s.task == "run_gemini" then
    match s.params.prompt with
    | none => .error (.invalidPlan
        ("Step \x27" ++ s.id ++ "\x27 (run_gemini) missing required parameter: prompt"))
    | some prompt => .ok (.runGemini s.id prompt)
  else if s.task == "create_file" then
    match s.params.filename with
    | none => .error (.invalidPlan
        ("Step \x27" ++ s.id ++ "\x27 (create_file) missing required parameter: filename"))
    | some filename =>
      if filenameTraversal filename then
        .error (.invalidPlan ("Step \x27" ++ s.id ++ "\x27 (create_file) has invalid filename \x27"
          ++ filename ++ "\x27: path traversal detected or absolute path"))
      else if filenameControl filename then
        .error (.invalidPlan ("Step \x27" ++ s.id ++ "\x27 (create_file) has invalid filename \x27"
          ++ filename ++ "\x27: control characters detected"))
      else .ok (.createFile s.id filename s.params.content_from)
  else .error (.invalidPlan
    ("Unknown task type: \x27" ++ s.task ++ "\x27 in step \x27" ++ s.id ++ "\x27"))

def buildTasks : List Step → List (String × TaskSpec) → Except AppError (List (String × TaskSpec))
  | [], acc => .ok acc
  | s :: rest, acc =>
    match buildTaskForStep s with
    | .error e => .error e
    | .ok t => buildTasks rest (insertTask acc s.id t)

/-- plan_utils.rs lines 52-58: first step with no dependencies, or the first step of
the plan if every step has dependencies; none only for an empty plan. -/
def find_start_step_id (plan : Plan) : Option String :=
  match plan.steps.find? fun s => s.dependencies.isEmpty with
  | some s => some s.id
  | none =>
    match plan.steps with
    | [] => none
    | s :: _ => some s.id

/-- Dependency edges dep → step (plan_to_graph.rs lines 117-121). -/
def planEdges (plan : Plan) : List (String × String) :=
  plan.steps.flatMap fun s => s.dependencies.map fun d => (d, s.id)

/-- plan_to_graph.rs lines 33-138. -/
def build_graph_from_plan (plan : Plan) : Except AppError GraphModel :=
  match plan.validate with
  | .error e => .error (.invalidPlan ("Plan validation failed: " ++ e))
  | .ok _ =>
    if plan.steps.isEmpty then .error (.invalidPlan "Plan has no steps")
    else
      match buildTasks plan.steps [] with
      | .error e => .error e
      | .ok tasks =>
        match find_start_step_id plan with
        | none => .error (.internal "Plan has no steps (this should not happen after validation)")
        | some start_id =>
          .ok { id := "plan_execution", tasks := tasks, edges := planEdges plan,
                start := start_id }

/-! ## Result extraction (graph_executor.rs lines 79-119) -/

structure StepResult where
  step_id : String
  step_number : Nat
  success : Bool
  output : Option String
  error : Option String
deriving Repr, DecidableEq

/-- The step_number_map HashMap, collected from `plan.steps.iter().enumerate()`:
later inserts overwrite, lookup falls back to 0 (`unwrap_or(0)`). -/
def stepNumberFrom (idx acc : Nat) (id : String) : List Step → Nat
  | [] => acc
  | s :: rest => stepNumberFrom (idx + 1) (if s.id == id then idx + 1 else acc) id rest

def stepNumberOf (steps : List Step) (id : String) : Nat := stepNumberFrom 0 0 id steps

def outputKey (id : String) : String := id ++ ".output"

/-- One iteration of the extraction loop (graph_executor.rs lines 90-113). -/
def mkStepResult (ctx : Context) (steps : List Step) (s : Step) : StepResult :=
  let n := stepNumberOf steps s.id
  let output := ctxGet ctx (outputKey s.id)
  { step_id := s.id, step_number := n, success := output.isSome, output := output,
    error := if output.isSome then none
             else some ("Step " ++ toString n ++ " (" ++ s.id ++ ") did not produce output") }

/-- Stable insertion for `results.sort_by_key(|r| r.step_number)` (a stable sort). -/
def insertByNumber (r : StepResult) : List StepResult → List StepResult
  | [] => [r]
  | x :: xs => if r.step_number ≤ x.step_number then r :: x :: xs else x :: insertByNumber r xs

def sortByStepNumber : List StepResult → List StepResult
  | [] => []
  | r :: rs => insertByNumber r (sortByStepNumber rs)

def extract_step_results_from_context (plan : Plan) (ctx : Context) : List StepResult :=
  sortByStepNumber (plan.steps.map (mkStepResult ctx plan.steps))

/-! ## Graph executor (graph_executor.rs lines 122-334)

The graph-flow `FlowRunner` is an external library; one pass of the driver loop ends
in one of the statuses the loop discriminates on. The final context and the loop
outcome parameterize the model. -/

inductive RunnerOutcome where
  | completed
  | pausedNoOutgoing
  | errored (msg : String)
deriving Repr, DecidableEq

/-- The all_complete scan of the Paused branch (graph_executor.rs lines 252-259). -/
def allOutputsPresent (plan : Plan) (ctx : Context) : Bool :=
  plan.steps.all fun s => (ctxGet ctx (outputKey s.id)).isSome

/-- graph_executor.rs lines 145-334. In the Paused "No outgoing edge found" branch
the source breaks out of the loop both when all_complete holds (completion) and when
it does not (legacy heuristic, warn and break); both continue to result extraction. -/
def execute_plan_inner (plan : Plan) (ctx : Context) (outcome : RunnerOutcome) :
    Except AppError (List StepResult) :=
  match build_graph_from_plan plan with
  | .error e => .error e
  | .ok _ =>
    match outcome with
    | .errored msg => .error (.planExecutionFailed ("Plan execution failed: " ++ msg))
    | .completed => .ok (extract_step_results_from_context plan ctx)
    | .pausedNoOutgoing =>
      if allOutputsPresent plan ctx then .ok (extract_step_results_from_context plan ctx)
      else .ok (extract_step_results_from_context plan ctx)

/-- graph_executor.rs lines 122-139: the timeout wrapper. -/
def execute_plan_with_config (plan : Plan) (ctx : Context) (outcome : RunnerOutcome)
    (timedOut : Bool) (plan_timeout_secs : Nat) : Except AppError (List StepResult) :=
  if timedOut then
    .error (.timeout ("Plan execution timed out after " ++ toString plan_timeout_secs
      ++ " seconds"))
  else execute_plan_inner plan ctx outcome

/-! ## Plan optimizer (plan_optimizer.rs)

plan_optimizer.rs line 26 computes `(prompt.len() as f64 * 1.3) as usize`.
`f64Mul13Floor` models that computation exactly for prompt byte lengths below 2^53
(where the usize → f64 conversion is exact): the f64 nearest 1.3 has significand
5854679515581645 at scale 2^-52; the product is rounded to 53 significant bits with
round-to-nearest-even, and the cast truncates toward zero. -/

/-- Round n / 2^s to the nearest integer, ties to even. -/
def roundNearestEven (n s : Nat) : Nat :=
  if s = 0 then n
  else
    let q := n / 2 ^ s
    let r := n % 2 ^ s
    let half := 2 ^ (s - 1)
    if half < r then q + 1
    else if r < half then q
    else if q % 2 = 0 then q else q + 1

/-- Significand of the IEEE-754 binary64 value nearest 1.3, at scale 2^-52. -/
def f64ThirteenTenthsSig : Nat := 5854679515581645

/-- Number of right shifts needed to bring n below 2^53 (the excess of the bit
length over 53). The fuel 128 covers every n < 2^(53+128), far above any value
reachable from a prompt length. -/
def f64ScaleAux : Nat → Nat → Nat → Nat
  | 0, _, s => s
  | fuel + 1, n, s => if n < 2 ^ 53 then s else f64ScaleAux fuel (n / 2) (s + 1)

/-- Exact value of Rust `(n as f64 * 1.3) as usize` for n < 2^53. -/
def f64Mul13Floor (n : Nat) : Nat :=
  if n = 0 then 0
  else
    let prod := n * f64ThirteenTenthsSig
    let s := f64ScaleAux 128 prod 0
    if s = 0 then prod / 2 ^ 52
    else roundNearestEven prod s * 2 ^ s / 2 ^ 52

/-- Per-step cost of the match in estimate_token_usage (plan_optimizer.rs lines 21-37):
a run_gemini step without a prompt adds nothing. -/
def stepTokenCost (s : Step) : Nat :=
  if s.task == "run_gemini" then
    match s.params.prompt with
    | some p => f64Mul13Floor p.utf8ByteSize + 100
    | none => 0
  else if s.task == "create_file" then 50
  else 100

/-- plan_optimizer.rs lines 17-41. -/
def estimate_token_usage (plan : Plan) : Nat :=
  plan.steps.foldl (fun total s => total + stepTokenCost s) 0

def stepTimeCost (s : Step) : Nat :=
  if s.task == "run_gemini" then 3
  else if s.task == "create_file" then 1
  else 2

/-- plan_optimizer.rs lines 48-70. -/
def estimate_execution_time (plan : Plan) : Nat :=
  plan.steps.foldl (fun total s => total + stepTimeCost s) 0

/-! ## Orchestrate SSE event stream (api/orchestrator.rs lines 297-426) -/

inductive OrchEvent where
  | raw (line : String)
  | planGenerated (step_count estimated_tokens estimated_time_secs : Nat)
  | stepStart (step_id : String) (step_number : Nat) (task : String)
  | stepComplete (step_id : String) (step_number : Nat) (output : String)
  | stepError (step_id : String) (step_number : Nat) (error : String)
  | executionComplete (total_steps successful_steps : Nat)
  | executionError (error : String)
  | done
deriving Repr, DecidableEq

/-- StepStart events for all steps, in declaration order (lines 362-369). -/
def stepStartEventsFrom (idx : Nat) : List Step → List OrchEvent
  | [] => []
  | s :: rest => .stepStart s.id (idx + 1) s.task :: stepStartEventsFrom (idx + 1) rest

def stepStartEvents (plan : Plan) : List OrchEvent := stepStartEventsFrom 0 plan.steps

/-- The result loop of the Ok branch (lines 375-404): each successful result yields
step_complete; the first failed result yields step_error, then the [DONE] sentinel,
and the generator returns. After a full pass, execution_complete and [DONE]. -/
def resultEventsGo (total succ : Nat) : List StepResult → List OrchEvent
  | [] => [.executionComplete total succ, .done]
  | r :: rs =>
    if r.success then
      .stepComplete r.step_id r.step_number (r.output.getD "") :: resultEventsGo total succ rs
    else [.stepError r.step_id r.step_number (r.error.getD "Unknown error"), .done]

def resultEvents (results : List StepResult) : List OrchEvent :=
  resultEventsGo results.length (results.countP fun r => r.success) results

/-- The event stream of the orchestrate endpoint after request validation
(api/orchestrator.rs lines 331-414), as a function of the planner outcome and of the
execution parameters of `execute_plan_with_config` (default config:
plan_timeout_secs = 300). -/
def orchestrate_events (planResult : Except AppError Plan) (ctx : Context)
    (outcome : RunnerOutcome) (timedOut : Bool) : List OrchEvent :=
  .raw "planning status" ::
  match planResult with
  | .error e => [.executionError ("Planning failed: " ++ appErrorMessage e), .done]
  | .ok plan =>
    .planGenerated plan.steps.length (estimate_token_usage plan) (estimate_execution_time plan)
      :: (stepStartEvents plan ++
        match execute_plan_with_config plan ctx outcome timedOut 300 with
        | .ok results => resultEvents results
        | .error e => [.executionError ("Execution failed: " ++ appErrorMessage e), .done])

def isStepErrorEvent : OrchEvent → Bool
  | .stepError _ _ _ => true
  | _ => false

def isExecutionCompleteEvent : OrchEvent → Bool
  | .executionComplete _ _ => true
  | _ => false

def isExecutionErrorEvent : OrchEvent → Bool
  | .executionError _ => true
  | _ => false

def hasStepError (es : List OrchEvent) : Bool := es.any isStepErrorEvent

def hasExecutionComplete (es : List OrchEvent) : Bool := es.any isExecutionCompleteEvent

def hasExecutionError (es : List OrchEvent) : Bool := es.any isExecutionErrorEvent

/-! ## Task implementations (tasks.rs, graph_flow::Task::run impls)

The external effects (the Gemini call of internal_run_gemini, the file write of
internal_create_file) are parameters: a task run is a pure function of the incoming
context and of the effect outcomes. `attempted_write` records whether the run reached
the internal_create_file call. -/

inductive GraphError where
  | taskExecutionFailed (msg : String)
deriving Repr, DecidableEq

/-- graph_flow::NextAction; the tasks only ever return Continue
(named continueNext here because `continue` is reserved in Lean). -/
inductive NextAction where
  | continueNext
deriving Repr, DecidableEq

structure TaskRunResult where
  result : Except GraphError (Option String × NextAction)
  ctx : Context
  attempted_write : Bool
deriving Repr

/-- RunGeminiTask::run (tasks.rs lines 124-153). -/
def runGeminiTask_run (step_id prompt : String) (ctx : Context)
    (gemini : String → Except String String) : TaskRunResult :=
  match gemini prompt with
  | .error e =>
    { result := .error (.taskExecutionFailed
        ("Gemini execution failed in step \x27" ++ step_id ++ "\x27: " ++ e)),
      ctx := ctx, attempted_write := false }
  | .ok output =>
    { result := .ok (some output, .continueNext),
      ctx := ctxSet ctx (outputKey step_id) output, attempted_write := false }

/-- Working-directory resolution of CreateFileTask::run (tasks.rs lines 272-281):
the context value wins, the app-state working directory is the fallback. -/
def resolveWorkingDir (ctx : Context) (app_state_working_dir : Option String) :
    Option String :=
  match ctxGet ctx "working_dir" with
  | some wd => some wd
  | none => app_state_working_dir

/-- The write-then-store tail of CreateFileTask::run (tasks.rs lines 302-326). -/
def createFileWriteAndStore (step_id : String) (content : String) (working_dir : Option String)
    (ctx : Context) (write : String → Option String → Except String String) : TaskRunResult :=
  match write content working_dir with
  | .error e =>
    { result := .error (.taskExecutionFailed
        ("File creation failed in step \x27" ++ step_id ++ "\x27: " ++ e)),
      ctx := ctx, attempted_write := true }
  | .ok file_path =>
    { result := .ok (some file_path, .continueNext),
      ctx := ctxSet ctx (outputKey step_id) file_path, attempted_write := true }

/-- Content resolution of CreateFileTask::run (tasks.rs lines 283-300): a
content_from reference is read from the context (failing the step when absent);
otherwise the direct content is used; with neither, the step fails. -/
def resolveContent (step_id : String) (content_from direct_content : Option String)
    (ctx : Context) : Except GraphError String :=
  match content_from with
  | some cf =>
    match ctxGet ctx cf with
    | none => .error (.taskExecutionFailed ("Step \x27" ++ step_id
        ++ "\x27 references output from \x27" ++ cf
        ++ "\x27 but that step has not been executed yet"))
    | some content => .ok content
  | none =>
    match direct_content with
    | some content => .ok content
    | none => .error (.taskExecutionFailed ("CreateFileTask \x27" ++ step_id
        ++ "\x27 has no content source (neither content_from nor direct_content)"))

/-- CreateFileTask::run (tasks.rs lines 248-327). -/
def createFileTask_run (step_id filename : String) (content_from direct_content : Option String)
    (ctx : Context) (app_state_working_dir : Option String)
    (write : String → Option String → Except String String) : TaskRunResult :=
  if filenameTraversal filename then
    { result := .error (.taskExecutionFailed ("Filename \x27" ++ filename ++ "\x27 in step \x27"
        ++ step_id ++ "\x27 contains invalid characters (path traversal detected or absolute path)")),
      ctx := ctx, attempted_write := false }
  else if filenameControl filename then
    { result := .error (.taskExecutionFailed ("Filename \x27" ++ filename ++ "\x27 in step \x27"
        ++ step_id ++ "\x27 contains invalid characters (control characters detected)")),
      ctx := ctx, attempted_write := false }
  else
    match resolveContent step_id content_from direct_content ctx with
    | .error e => { result := .error e, ctx := ctx, attempted_write := false }
    | .ok content =>
      createFileWriteAndStore step_id content
        (resolveWorkingDir ctx app_state_working_dir) ctx write

/-! ## Planner (primitives.rs lines 183-331)

try_plan_once performs the API call, the JSON parse and the plan validation; its
outcome for a given meta-prompt and attempt index is a parameter. -/

def build_meta_prompt (goal : String) : String :=
  "You are a planner agent. Your job is to take a user\x27s GOAL and break it down into a JSON plan with steps.\n\nAvailable Tools:\n1. run_gemini: Runs a prompt through Gemini and returns text output. Parameters: \x7b\"prompt\": \"...\"\x7d\n2. create_file: Saves text content to a file. Parameters: \x7b\"filename\": \"...\", \"content_from\": \"step_X.output\"\x7d\n\nOutput Format (JSON):\n\x7b\n  \"version\": \"1.0\",\n  \"steps\": [\n    \x7b\n      \"id\": \"step_1\",\n      \"task\": \"run_gemini\",\n      \"params\": \x7b\n        \"prompt\": \"...\"\n      \x7d,\n      \"dependencies\": []\n    \x7d,\n    \x7b\n      \"id\": \"step_2\",\n      \"task\": \"create_file\",\n      \"params\": \x7b\n        \"filename\": \"...\",\n        \"content_from\": \"step_1.output\"\n      \x7d,\n      \"dependencies\": [\"step_1\"]\n    \x7d\n  ]\n\x7d\n\nCRITICAL REQUIREMENT - Dependencies Array:\n- EVERY step MUST have a \"dependencies\" array (even if empty)\n- If a step has no prerequisites, use: \"dependencies\": []\n- If step_2 depends on step_1, use: \"dependencies\": [\"step_1\"]\n- Multiple dependencies: \"dependencies\": [\"step_1\", \"step_3\"]\n- If \"content_from\" references \"step_X.output\", then \"dependencies\" MUST include \"step_X\"\n\nImportant Rules:\n- Each step must have a unique \"id\" (e.g., \"step_1\", \"step_2\")\n- The \"task\" must be one of: \"run_gemini\", \"create_file\"\n- For \"create_file\" tasks, use \"content_from\" to reference another step\x27s output (e.g., \"step_1.output\")\n- Steps with empty \"dependencies\" can run in parallel with other independent steps\n\nExamples:\n\nSequential Plan (step_2 depends on step_1):\n\x7b\n  \"steps\": [\n    \x7b\"id\": \"step_1\", \"task\": \"run_gemini\", \"params\": \x7b\"prompt\": \"Write poem A\"\x7d, \"dependencies\": []\x7d,\n    \x7b\"id\": \"step_2\", \"task\": \"create_file\", \"params\": \x7b\"filename\": \"poem.txt\", \"content_from\": \"step_1.output\"\x7d, \"dependencies\": [\"step_1\"]\x7d\n  ]\n\x7d\n\nParallel Plan (step_1, step_2, step_3 can run simultaneously):\n\x7b\n  \"steps\": [\n    \x7b\"id\": \"step_1\", \"task\": \"run_gemini\", \"params\": \x7b\"prompt\": \"Write poem about Rust\"\x7d, \"dependencies\": []\x7d,\n    \x7b\"id\": \"step_2\", \"task\": \"run_gemini\", \"params\": \x7b\"prompt\": \"Write poem about Python\"\x7d, \"dependencies\": []\x7d,\n    \x7b\"id\": \"step_3\", \"task\": \"run_gemini\", \"params\": \x7b\"prompt\": \"Write poem about Go\"\x7d, \"dependencies\": []\x7d,\n    \x7b\"id\": \"step_4\", \"task\": \"create_file\", \"params\": \x7b\"filename\": \"combined.txt\", \"content_from\": \"step_1.output\"\x7d, \"dependencies\": [\"step_1\", \"step_2\", \"step_3\"]\x7d\n  ]\n\x7d\n\nGOAL: \""
  ++ goal
  ++ "\"\n\nGenerate a JSON plan with the steps needed to accomplish this goal. Remember: EVERY step MUST have a \"dependencies\" array. Return ONLY valid JSON, no other text."

/-- internal_run_planner (primitives.rs lines 183-232). The source binds
`meta_prompt = build_meta_prompt(goal)` once and passes the same prompt to both
try_plan_once calls; the binding is inlined here. The second component counts the
try_plan_once calls made. -/
def internal_run_planner (goal : String)
    (try_plan_once : String → Nat → Except AppError Plan) : Except AppError Plan × Nat :=
  match try_plan_once (build_meta_prompt goal) 0 with
  | .ok plan => (.ok plan, 1)
  | .error _ =>
    match try_plan_once (build_meta_prompt goal) 1 with
    | .ok plan => (.ok plan, 2)
    | .error retry_error => (.error retry_error, 2)

def isPlanningFailedResult : Except AppError Plan → Bool
  | .error (.planningFailed _) => true
  | _ => false

/-! ## Orchestrator configuration (config.rs, api/orchestrator.rs lines 493-515) -/

structure OrchestratorConfig where
  gemini_timeout_secs : Nat
  gemini_model : String
  gemini_api_base_url : String
  max_goal_length : Nat
  plan_timeout_secs : Nat
  max_parallel_tasks : Nat
deriving Repr, DecidableEq

def OrchestratorConfig.default : OrchestratorConfig :=
  { gemini_timeout_secs := 30
    gemini_model := "gemini-2.5-flash"
    gemini_api_base_url := "https://generativelanguage.googleapis.com/v1beta"
    max_goal_length := 10000
    plan_timeout_secs := 300
    max_parallel_tasks := 10 }

structure ConfigUpdateRequest where
  max_parallel_tasks : Option Nat := none
  gemini_model : Option String := none
  max_goal_length : Option Nat := none
  plan_timeout_secs : Option Nat := none
deriving Repr, DecidableEq

/-- Validation and update of one field (one `if let Some` block of config.rs). -/
def applyMaxParallel (config : OrchestratorConfig) : Option Nat →
    Except AppError OrchestratorConfig
  | none => .ok config
  | some 0 => .error (.internal "max_parallel_tasks must be > 0")
  | some max_parallel => .ok { config with max_parallel_tasks := max_parallel }

def applyGeminiModel (config : OrchestratorConfig) : Option String →
    Except AppError OrchestratorConfig
  | none => .ok config
  | some model =>
    if model == "" then .error (.internal "gemini_model cannot be empty")
    else .ok { config with gemini_model := model }

def applyMaxGoalLength (config : OrchestratorConfig) : Option Nat →
    Except AppError OrchestratorConfig
  | none => .ok config
  | some 0 => .error (.internal "max_goal_length must be > 0")
  | some max_goal => .ok { config with max_goal_length := max_goal }

def applyPlanTimeout (config : OrchestratorConfig) : Option Nat →
    Except AppError OrchestratorConfig
  | none => .ok config
  | some 0 => .error (.internal "plan_timeout_secs must be > 0")
  | some timeoutSecs => .ok { config with plan_timeout_secs := timeoutSecs }

/-- config.rs lines 66-111: the four field checks in source order. -/
def validate_and_apply_config_update (config : OrchestratorConfig)
    (request : ConfigUpdateRequest) : Except AppError OrchestratorConfig := do
  let c1 ← applyMaxParallel config request.max_parallel_tasks
  let c2 ← applyGeminiModel c1 request.gemini_model
  let c3 ← applyMaxGoalLength c2 request.max_goal_length
  applyPlanTimeout c3 request.plan_timeout_secs

/-- GET /api/config (api/orchestrator.rs lines 493-495): always the default config. -/
def get_config : OrchestratorConfig := OrchestratorConfig.default

/-- POST /api/config (api/orchestrator.rs lines 502-515): validates against the
default config and returns the updated copy; nothing is persisted. -/
def update_config (request : ConfigUpdateRequest) : Except AppError OrchestratorConfig :=
  validate_and_apply_config_update OrchestratorConfig.default request

/-! ## Bridge session response dispatch (chat/bridge_session.rs lines 279-302) -/

structure BridgeResponse where
  status : String
  data : Option String := none
  message : Option String := none
deriving Repr, DecidableEq

/-- The response dispatch at the end of BridgeSession::send_message: one parsed
response object is turned into the call result. -/
def handleBridgeResponse (response : BridgeResponse) : Except String String :=
  if response.status == "success" then .ok (response.data.getD "")
  else if response.status == "error" then
    .error (response.message.getD "Unknown error")
  else .error ("Unexpected response status: " ++ response.status)

/-! ## Helper lemmas: result extraction -/

/-- Specification-side description of result extraction: one result per Step, in
declaration order, step_number the 1-based declaration index, success exactly when
the output key is present, and otherwise the synthesized message. -/
def specResultsFrom (ctx : Context) : Nat → List Step → List StepResult
  | _, [] => []
  | i, s :: rest =>
    { step_id := s.id, step_number := i + 1,
      success := (ctxGet ctx (outputKey s.id)).isSome,
      output := ctxGet ctx (outputKey s.id),
      error := if (ctxGet ctx (outputKey s.id)).isSome then none
               else some ("Step " ++ toString (i + 1) ++ " (" ++ s.id
                 ++ ") did not produce output") } :: specResultsFrom ctx (i + 1) rest

theorem stepNumberFrom_of_not_mem (id : String) :
    ∀ (steps : List Step) (idx acc : Nat), id ∉ idsOf steps →
      stepNumberFrom idx acc id steps = acc := by
  intro steps
  induction steps with
  | nil => intro idx acc _; rfl
  | cons s rest ih =>
    intro idx acc h
    have h1 : (s.id == id) = false := by
      refine beq_eq_false_iff_ne.mpr fun he => h ?_
      simp [idsOf, he]
    show stepNumberFrom (idx + 1) (if s.id == id then idx + 1 else acc) id rest = acc
    rw [h1]
    simpa using ih (idx + 1) acc fun hm => h (by simp [idsOf] at hm ⊢; exact Or.inr hm)

theorem allDistinct_cons_facts {x : String} {xs : List String}
    (h : allDistinct (x :: xs) = true) : x ∉ xs ∧ allDistinct xs = true := by
  have h2 := h
  unfold allDistinct at h2
  rw [Bool.and_eq_true, Bool.not_eq_true'] at h2
  exact ⟨by simpa using h2.1, h2.2⟩

theorem stepNumberFrom_get :
    ∀ (steps : List Step) (idx acc i : Nat) (hi : i < steps.length),
      allDistinct (idsOf steps) = true →
      stepNumberFrom idx acc (steps.get ⟨i, hi⟩).id steps = idx + i + 1 := by
  intro steps
  induction steps with
  | nil => intro idx acc i hi _; simp at hi
  | cons s rest ih =>
    intro idx acc i hi hd
    have hd2 : allDistinct (s.id :: idsOf rest) = true := by simpa [idsOf] using hd
    obtain ⟨hnm, hd3⟩ := allDistinct_cons_facts hd2
    cases i with
    | zero =>
      show stepNumberFrom (idx + 1) (if s.id == s.id then idx + 1 else acc) s.id rest
        = idx + 0 + 1
      rw [beq_self_eq_true, if_pos rfl]
      rw [stepNumberFrom_of_not_mem s.id rest (idx + 1) (idx + 1) hnm]
    | succ j =>
      have hj : j < rest.length := Nat.lt_of_succ_lt_succ hi
      have hmem : (rest.get ⟨j, hj⟩).id ∈ idsOf rest :=
        List.mem_map_of_mem Step.id (rest.get_mem j hj)
      have hne : (s.id == (rest.get ⟨j, hj⟩).id) = false :=
        beq_eq_false_iff_ne.mpr fun he => hnm (he ▸ hmem)
      show stepNumberFrom (idx + 1)
          (if s.id == (rest.get ⟨j, hj⟩).id then idx + 1 else acc)
          (rest.get ⟨j, hj⟩).id rest = idx + (j + 1) + 1
      rw [hne]
      simp only [Bool.false_eq_true, if_false]
      have h4 := ih (idx + 1) acc j hj hd3
      rw [h4]
      omega

theorem stepNumberOf_get (steps : List Step) (i : Nat) (hi : i < steps.length)
    (hd : allDistinct (idsOf steps) = true) :
    stepNumberOf steps (steps.get ⟨i, hi⟩).id = i + 1 := by
  have h := stepNumberFrom_get steps 0 0 i hi hd
  simpa [stepNumberOf] using h

theorem map_mk_eq_spec_aux (ctx : Context) (steps0 : List Step) :
    ∀ (suffix : List Step) (k : Nat),
      (∀ j (hj : j < suffix.length), stepNumberOf steps0 ((suffix.get ⟨j, hj⟩).id) = k + j + 1) →
      suffix.map (mkStepResult ctx steps0) = specResultsFrom ctx k suffix := by
  intro suffix
  induction suffix with
  | nil => intro k _; rfl
  | cons s rest ih =>
    intro k h
    have h0 : stepNumberOf steps0 s.id = k + 1 := by
      have := h 0 (by simp)
      simpa using this
    have htail : rest.map (mkStepResult ctx steps0) = specResultsFrom ctx (k + 1) rest := by
      refine ih (k + 1) fun j hj => ?_
      have := h (j + 1) (by simpa using Nat.succ_lt_succ hj)
      simp only [List.get_cons_succ] at this
      rw [this]
      omega
    show mkStepResult ctx steps0 s :: rest.map (mkStepResult ctx steps0) = _
    rw [htail]
    simp [specResultsFrom, mkStepResult, h0]

theorem sortByStepNumber_spec (ctx : Context) :
    ∀ (steps : List Step) (k : Nat),
      sortByStepNumber (specResultsFrom ctx k steps) = specResultsFrom ctx k steps := by
  intro steps
  induction steps with
  | nil => intro k; rfl
  | cons s rest ih =>
    intro k
    show sortByStepNumber (_ :: specResultsFrom ctx (k + 1) rest) = _
    unfold sortByStepNumber
    rw [ih (k + 1)]
    cases rest with
    | nil => rfl
    | cons t rts =>
      show insertByNumber _ (_ :: specResultsFrom ctx (k + 2) rts) = _
      unfold insertByNumber
      rw [if_pos (by omega : k + 1 ≤ k + 1 + 1)]
      rfl

/-- extract_step_results_from_context, for a plan with distinct step IDs, is exactly
the declaration-order result list described by the specification. -/
theorem extract_eq_spec (plan : Plan) (ctx : Context)
    (hd : allDistinct (idsOf plan.steps) = true) :
    extract_step_results_from_context plan ctx = specResultsFrom ctx 0 plan.steps := by
  unfold extract_step_results_from_context
  rw [map_mk_eq_spec_aux ctx plan.steps plan.steps 0
    (fun j hj => by simpa using stepNumberOf_get plan.steps j hj hd)]
  exact sortByStepNumber_spec ctx plan.steps 0

theorem spec_all_success (ctx : Context) :
    ∀ (k : Nat) (steps : List Step),
      ((specResultsFrom ctx k steps).all fun r => r.success)
        = (steps.all fun s => (ctxGet ctx (outputKey s.id)).isSome) := by
  intro k steps
  induction steps generalizing k with
  | nil => rfl
  | cons s rest ih =>
    simp [specResultsFrom, List.all_cons, ih (k + 1)]

/-! ## Helper lemmas: validator and graph builder -/

theorem validate_ok_facts (plan : Plan) (h : plan.validate = .ok ()) :
    plan.steps.isEmpty = false ∧
    allDistinct (idsOf plan.steps) = true ∧
    (plan.steps.all validTaskParams) = true ∧
    depsResolve plan.steps = true ∧
    acyclicSteps plan.steps = true ∧
    (plan.steps.all filenameHygieneOk) = true := by
  unfold Plan.validate at h
  repeat' split at h
  any_goals exact Except.noConfusion h
  rename_i h1 h2 h3 h4 h5 h6 h7
  simp only [Bool.not_eq_true, Bool.not_eq_false', Bool.and_eq_true] at h1 h2 h3 h4 h5 h7
  exact ⟨h1, h2.1, h3, h4, h5, h7⟩

theorem buildTasks_ok_of_all_ok (steps : List Step)
    (h : ∀ s ∈ steps, ∃ t, buildTaskForStep s = .ok t) :
    ∀ acc, ∃ tasks, buildTasks steps acc = .ok tasks := by
  induction steps with
  | nil => intro acc; exact ⟨acc, rfl⟩
  | cons s rest ih =>
    intro acc
    obtain ⟨t, ht⟩ := h s (List.mem_cons_self s rest)
    have := ih (fun s2 hs2 => h s2 (List.mem_cons_of_mem s hs2)) (insertTask acc s.id t)
    simpa [buildTasks, ht] using this

theorem buildTaskForStep_ok_of_valid (s : Step) (hv : validTaskParams s = true)
    (hg : filenameHygieneOk s = true) : ∃ t, buildTaskForStep s = .ok t := by
  unfold validTaskParams at hv
  unfold filenameHygieneOk at hg
  unfold buildTaskForStep
  split at hv
  · rename_i htask
    rw [if_pos htask]
    cases hp : s.params.prompt with
    | none => rw [hp] at hv; exact absurd hv (by simp)
    | some p => exact ⟨_, rfl⟩
  · rename_i htask
    split at hv
    · rename_i htask2
      rw [if_neg htask, if_pos htask2]
      rw [if_pos htask2] at hg
      cases hf : s.params.filename with
      | none => rw [hf] at hv; exact absurd hv (by simp)
      | some f =>
        rw [hf] at hg
        have hbad : filenameBad f = false := by simpa using hg
        unfold filenameBad at hbad
        rw [Bool.or_eq_false_iff] at hbad
        exact ⟨TaskSpec.createFile s.id f s.params.content_from,
          by simp [hbad.1, hbad.2]⟩
    · exact absurd hv (by simp)

/-- A plan that passes its validation and the empty-steps check builds successfully,
with the start node chosen by find_start_step_id. -/
theorem build_ok_of_validate_ok (plan : Plan) (hv : plan.validate = .ok ())
    (start_id : String) (hs : find_start_step_id plan = some start_id) :
    ∃ tasks, build_graph_from_plan plan =
      .ok { id := "plan_execution", tasks := tasks, edges := planEdges plan,
            start := start_id } := by
  obtain ⟨hne, _, hparams, _, _, hhyg⟩ := validate_ok_facts plan hv
  have hall : ∀ s ∈ plan.steps, ∃ t, buildTaskForStep s = .ok t := by
    intro s hsmem
    exact buildTaskForStep_ok_of_valid s
      (by rw [List.all_eq_true] at hparams; exact hparams s hsmem)
      (by rw [List.all_eq_true] at hhyg; exact hhyg s hsmem)
  obtain ⟨tasks, htasks⟩ := buildTasks_ok_of_all_ok plan.steps hall []
  refine ⟨tasks, ?_⟩
  unfold build_graph_from_plan
  rw [hv, hne, htasks, hs]
  rfl

theorem buildTaskForStep_error_invalidPlan (s : Step) (e : AppError)
    (h : buildTaskForStep s = .error e) : ∃ m, e = .invalidPlan m := by
  unfold buildTaskForStep at h
  repeat' split at h
  any_goals exact Except.noConfusion h
  all_goals exact ⟨_, ((Except.error.injEq _ _).mp h).symm⟩

theorem buildTasks_error_invalidPlan :
    ∀ (steps : List Step) (acc : List (String × TaskSpec)) (e : AppError),
      buildTasks steps acc = .error e → ∃ m, e = .invalidPlan m := by
  intro steps
  induction steps with
  | nil => intro acc e h; exact Except.noConfusion h
  | cons s rest ih =>
    intro acc e h
    unfold buildTasks at h
    split at h
    · rename_i e2 he2
      obtain ⟨m, hm⟩ := buildTaskForStep_error_invalidPlan s e2 he2
      exact ⟨m, by rw [← ((Except.error.injEq _ _).mp h), hm]⟩
    · exact ih _ e h

theorem find_start_of_ne_nil (plan : Plan) (h : plan.steps ≠ []) :
    ∃ sid, find_start_step_id plan = some sid := by
  unfold find_start_step_id
  cases hfind : plan.steps.find? fun s => s.dependencies.isEmpty with
  | some s => exact ⟨s.id, rfl⟩
  | none =>
    cases hsteps : plan.steps with
    | nil => exact absurd hsteps h
    | cons s rest => exact ⟨s.id, rfl⟩

/-- The graph builder only fails with InvalidPlan: the Internal start-node error is
unreachable because find_start_step_id is total on non-empty plans. -/
theorem build_error_is_invalidPlan (plan : Plan) (e : AppError)
    (h : build_graph_from_plan plan = .error e) : ∃ m, e = .invalidPlan m := by
  unfold build_graph_from_plan at h
  cases hv : plan.validate with
  | error msg =>
    rw [hv] at h
    exact ⟨_, ((Except.error.injEq _ _).mp h).symm⟩
  | ok u =>
    cases u
    rw [hv] at h
    by_cases hne : plan.steps.isEmpty = true
    · rw [if_pos hne] at h
      exact ⟨_, ((Except.error.injEq _ _).mp h).symm⟩
    · rw [if_neg hne] at h
      cases hb : buildTasks plan.steps [] with
      | error e2 =>
        rw [hb] at h
        obtain ⟨m, hm⟩ := buildTasks_error_invalidPlan plan.steps [] e2 hb
        exact ⟨m, by rw [← ((Except.error.injEq _ _).mp h), hm]⟩
      | ok tasks =>
        rw [hb] at h
        have hnil : plan.steps ≠ [] := fun hx => hne (by simp [hx])
        obtain ⟨sid, hsid⟩ := find_start_of_ne_nil plan hnil
        rw [hsid] at h
        exact Except.noConfusion h

/-- A non-empty step list that passes the acyclicity check has a dependency-free
step: nothing is removable in the first elimination round otherwise. -/
theorem acyclic_nonempty_has_source (steps : List Step) (hne : steps ≠ [])
    (hac : acyclicSteps steps = true) :
    ∃ s ∈ steps, s.dependencies.isEmpty = true := by
  unfold acyclicSteps at hac
  cases hlen : steps.length with
  | zero => exact absurd (List.length_eq_zero.mp hlen) hne
  | succ n =>
    rw [hlen] at hac
    unfold kahnGo at hac
    have hrem : depsRemovable [] = fun s => s.dependencies.isEmpty := by
      funext s
      unfold depsRemovable
      cases hdeps : s.dependencies with
      | nil => rfl
      | cons d ds => simp [List.all_cons]
    rw [hrem] at hac
    cases hfil : steps.filter (fun s => s.dependencies.isEmpty) with
    | nil =>
      rw [hfil] at hac
      simp only [List.isEmpty_nil, if_true] at hac
      rw [List.isEmpty_iff] at hac
      exact absurd hac hne
    | cons s rest =>
      have hmem : s ∈ steps.filter fun s => s.dependencies.isEmpty := by
        rw [hfil]; exact List.mem_cons_self s rest
      rw [List.mem_filter] at hmem
      exact ⟨s, hmem.1, hmem.2⟩

/-! ## Helper lemmas: orchestrate event stream -/

theorem resultEventsGo_execComplete (total succ : Nat) :
    ∀ rs, ((resultEventsGo total succ rs).any isExecutionCompleteEvent)
      = (rs.all fun r => r.success) := by
  intro rs
  induction rs with
  | nil => rfl
  | cons r rest ih =>
    unfold resultEventsGo
    cases hs : r.success with
    | true => simp [hs, isExecutionCompleteEvent, ih]
    | false => simp [hs, isExecutionCompleteEvent]

theorem resultEventsGo_stepError (total succ : Nat) :
    ∀ rs, ((resultEventsGo total succ rs).any isStepErrorEvent)
      = !(rs.all fun r => r.success) := by
  intro rs
  induction rs with
  | nil => rfl
  | cons r rest ih =>
    unfold resultEventsGo
    cases hs : r.success with
    | true => simp [hs, isStepErrorEvent, ih]
    | false => simp [hs, isStepErrorEvent]

theorem resultEventsGo_execError (total succ : Nat) :
    ∀ rs, ((resultEventsGo total succ rs).any isExecutionErrorEvent) = false := by
  intro rs
  induction rs with
  | nil => rfl
  | cons r rest ih =>
    unfold resultEventsGo
    cases hs : r.success with
    | true => simp [hs, isExecutionErrorEvent, ih]
    | false => simp [hs, isExecutionErrorEvent]

theorem stepStartEventsFrom_any (p : OrchEvent → Bool)
    (hp : ∀ id n task, p (.stepStart id n task) = false) :
    ∀ (steps : List Step) (i : Nat), ((stepStartEventsFrom i steps).any p) = false := by
  intro steps
  induction steps with
  | nil => intro i; rfl
  | cons s rest ih =>
    intro i
    unfold stepStartEventsFrom
    simp [hp, ih (i + 1)]

/-- With the runner ending in a completion status (Completed, or the Paused
"No outgoing edge found" branch), execution returns the extracted results. -/
theorem execute_completes_ok (plan : Plan) (ctx : Context) (outcome : RunnerOutcome)
    (g : GraphModel) (hb : build_graph_from_plan plan = .ok g)
    (hnc : ∀ msg, outcome ≠ .errored msg) :
    execute_plan_with_config plan ctx outcome false 300 =
      .ok (extract_step_results_from_context plan ctx) := by
  show execute_plan_inner plan ctx outcome = _
  unfold execute_plan_inner
  rw [hb]
  cases outcome with
  | completed => rfl
  | pausedNoOutgoing =>
    show (if allOutputsPresent plan ctx = true then _ else _) = _
    split <;> rfl
  | errored msg => exact absurd rfl (hnc msg)

/-- Event-kind content of the orchestrate stream on the completion path. -/
theorem orchestrate_ok_stream_facts (plan : Plan) (ctx : Context) (outcome : RunnerOutcome)
    (g : GraphModel) (hb : build_graph_from_plan plan = .ok g)
    (hnc : ∀ msg, outcome ≠ .errored msg)
    (hd : allDistinct (idsOf plan.steps) = true) :
    hasExecutionComplete (orchestrate_events (.ok plan) ctx outcome false)
        = allOutputsPresent plan ctx ∧
    hasStepError (orchestrate_events (.ok plan) ctx outcome false)
        = !(allOutputsPresent plan ctx) ∧
    hasExecutionError (orchestrate_events (.ok plan) ctx outcome false) = false := by
  have h1 : orchestrate_events (.ok plan) ctx outcome false =
      .raw "planning status" ::
      .planGenerated plan.steps.length (estimate_token_usage plan)
        (estimate_execution_time plan) ::
      (stepStartEvents plan ++
        match execute_plan_with_config plan ctx outcome false 300 with
        | .ok results => resultEvents results
        | .error e =>
          [.executionError ("Execution failed: " ++ appErrorMessage e), .done]) := rfl
  have hstream : orchestrate_events (.ok plan) ctx outcome false =
      .raw "planning status" ::
      .planGenerated plan.steps.length (estimate_token_usage plan)
        (estimate_execution_time plan) ::
      (stepStartEvents plan ++
        resultEvents (extract_step_results_from_context plan ctx)) := by
    rw [h1, execute_completes_ok plan ctx outcome g hb hnc]
  have hext : ((extract_step_results_from_context plan ctx).all fun r => r.success)
      = allOutputsPresent plan ctx := by
    rw [extract_eq_spec plan ctx hd, spec_all_success ctx 0 plan.steps]
    rfl
  rw [hstream]
  unfold hasExecutionComplete hasStepError hasExecutionError resultEvents stepStartEvents
  simp only [List.any_cons, List.any_append]
  rw [stepStartEventsFrom_any isExecutionCompleteEvent (fun _ _ _ => rfl),
    stepStartEventsFrom_any isStepErrorEvent (fun _ _ _ => rfl),
    stepStartEventsFrom_any isExecutionErrorEvent (fun _ _ _ => rfl),
    resultEventsGo_execComplete, resultEventsGo_stepError, resultEventsGo_execError, hext]
  simp [isExecutionCompleteEvent, isStepErrorEvent, isExecutionErrorEvent]

/-- Claim C1: for a plan that builds, when the graph-flow loop ends in a completion
status (Completed, or Paused with no outgoing edge, with or without missing
outputs), the orchestrate stream reports overall success (an execution_complete
event) exactly when every declared Step produced its "step_id.output" in the final
context; when any output is missing (in particular in the pause-with-missing-outputs
case), the stream reports an error outcome: a step_error event and no
execution_complete event. -/
theorem c1_overall_success_iff_all_outputs (plan : Plan) (ctx : Context)
    (outcome : RunnerOutcome) (g : GraphModel)
    (hb : build_graph_from_plan plan = .ok g)
    (hnc : ∀ msg, outcome ≠ .errored msg) :
    (hasExecutionComplete (orchestrate_events (.ok plan) ctx outcome false) = true ↔
      allOutputsPresent plan ctx = true) ∧
    (allOutputsPresent plan ctx = false →
      hasStepError (orchestrate_events (.ok plan) ctx outcome false) = true ∧
      hasExecutionComplete (orchestrate_events (.ok plan) ctx outcome false) = false) := by
  have hd : allDistinct (idsOf plan.steps) = true := by
    cases hv : plan.validate with
    | error msg =>
      exfalso
      unfold build_graph_from_plan at hb
      rw [hv] at hb
      exact Except.noConfusion hb
    | ok u => cases u; exact (validate_ok_facts plan hv).2.1
  obtain ⟨hc, he, _⟩ := orchestrate_ok_stream_facts plan ctx outcome g hb hnc hd
  constructor
  · rw [hc]
  · intro hmiss
    rw [hc, he, hmiss]
    exact ⟨rfl, rfl⟩

/-- A valid two-step plan (run_gemini then create_file) used by concrete instances. -/
def c1plan : Plan :=
  { version := "1.0",
    steps := [
      { id := "s1", task := "run_gemini", params := { prompt := some "abc" },
        dependencies := [] },
      { id := "s2", task := "create_file",
        params := { filename := some "poem.txt", content_from := some "s1.output" },
        dependencies := ["s1"] } ] }

def c1graph : GraphModel :=
  { id := "plan_execution",
    tasks := [("s1", .runGemini "s1" "abc"),
              ("s2", .createFile "s2" "poem.txt" (some "s1.output"))],
    edges := [("s1", "s2")], start := "s1" }

/-- A concrete instance of C1: in the legacy pause-with-no-outgoing-edge situation
with the second output missing, the stream has a step_error and no
execution_complete. -/
theorem c1_witness :
    hasStepError (orchestrate_events (.ok c1plan)
      [("s1.output", "hello")] .pausedNoOutgoing false) = true ∧
    hasExecutionComplete (orchestrate_events (.ok c1plan)
      [("s1.output", "hello")] .pausedNoOutgoing false) = false := by
  have h := c1_overall_success_iff_all_outputs c1plan
    [("s1.output", "hello")] .pausedNoOutgoing c1graph
    (by rfl) (fun msg h2 => RunnerOutcome.noConfusion h2)
  exact h.2 (by decide)

/-- If some result failed, the result-event loop ends at the first failure: a
step_error event directly followed by the [DONE] sentinel. -/
theorem resultEventsGo_decomp (total succ : Nat) :
    ∀ rs, (rs.all fun r => r.success) = false →
      ∃ pre sid n msg,
        resultEventsGo total succ rs = pre ++ [.stepError sid n msg, .done] := by
  intro rs
  induction rs with
  | nil => simp
  | cons r rest ih =>
    intro hall
    cases hs : r.success with
    | false =>
      refine ⟨[], r.step_id, r.step_number, r.error.getD "Unknown error", ?_⟩
      unfold resultEventsGo
      simp [hs]
    | true =>
      have hrest : (rest.all fun r => r.success) = false := by
        simpa [List.all_cons, hs] using hall
      obtain ⟨pre, sid, n, msg, hp⟩ := ih hrest
      refine ⟨.stepComplete r.step_id r.step_number (r.output.getD "") :: pre,
        sid, n, msg, ?_⟩
      unfold resultEventsGo
      simp [hs, hp]

/-- A one-step plan whose step produced no output: the stream of the orchestrate
endpoint goes plan_generated, step_start, step_error, then directly the [DONE]
sentinel, with no terminal execution_error event. This is the concrete stream on
which the claimed "a terminal execution_error follows every step_error" fails. -/
theorem c2_counterexample :
    orchestrate_events (.ok
      { version := "1.0",
        steps := [ { id := "t1", task := "run_gemini",
                     params := { prompt := some "hi" }, dependencies := [] } ] })
      [] .completed false =
      [.raw "planning status", .planGenerated 1 102 3, .stepStart "t1" 1 "run_gemini",
       .stepError "t1" 1 "Step 1 (t1) did not produce output", .done] ∧
    hasExecutionError (orchestrate_events (.ok
      { version := "1.0",
        steps := [ { id := "t1", task := "run_gemini",
                     params := { prompt := some "hi" }, dependencies := [] } ] })
      [] .completed false) = false := by
  constructor
  · decide
  · decide

/-- Claim C2 (amended): in every orchestrate stream, if a step_error event is
emitted then no execution_error and no execution_complete event is emitted at all;
the stream consists of a prefix followed by that step_error and then directly the
[DONE] sentinel. -/
theorem c2_step_error_then_done (planResult : Except AppError Plan) (ctx : Context)
    (outcome : RunnerOutcome) (timedOut : Bool)
    (h : hasStepError (orchestrate_events planResult ctx outcome timedOut) = true) :
    hasExecutionError (orchestrate_events planResult ctx outcome timedOut) = false ∧
    hasExecutionComplete (orchestrate_events planResult ctx outcome timedOut) = false ∧
    ∃ pre sid n msg, orchestrate_events planResult ctx outcome timedOut
      = pre ++ [.stepError sid n msg, .done] := by
  cases planResult with
  | error e =>
    exact absurd h (by simp [orchestrate_events, hasStepError, isStepErrorEvent])
  | ok plan =>
    have hstream : orchestrate_events (.ok plan) ctx outcome timedOut =
        .raw "planning status" ::
        .planGenerated plan.steps.length (estimate_token_usage plan)
          (estimate_execution_time plan) ::
        (stepStartEvents plan ++
          match execute_plan_with_config plan ctx outcome timedOut 300 with
          | .ok results => resultEvents results
          | .error e =>
            [.executionError ("Execution failed: " ++ appErrorMessage e), .done]) := rfl
    cases hexec : execute_plan_with_config plan ctx outcome timedOut 300 with
    | error e =>
      have hstream2 : orchestrate_events (.ok plan) ctx outcome timedOut =
          .raw "planning status" ::
          .planGenerated plan.steps.length (estimate_token_usage plan)
            (estimate_execution_time plan) ::
          (stepStartEvents plan ++
            [.executionError ("Execution failed: " ++ appErrorMessage e), .done]) := by
        rw [hstream, hexec]
      rw [hstream2] at h
      unfold hasStepError stepStartEvents at h
      simp only [List.any_cons, List.any_append,
        stepStartEventsFrom_any isStepErrorEvent (fun _ _ _ => rfl)] at h
      exact absurd h (by simp [isStepErrorEvent])
    | ok results =>
      have hstream2 : orchestrate_events (.ok plan) ctx outcome timedOut =
          .raw "planning status" ::
          .planGenerated plan.steps.length (estimate_token_usage plan)
            (estimate_execution_time plan) ::
          (stepStartEvents plan ++ resultEvents results) := by
        rw [hstream, hexec]
      rw [hstream2] at h
      unfold hasStepError stepStartEvents resultEvents at h
      simp only [List.any_cons, List.any_append,
        stepStartEventsFrom_any isStepErrorEvent (fun _ _ _ => rfl),
        resultEventsGo_stepError] at h
      simp only [isStepErrorEvent, Bool.false_or] at h
      have hall : (results.all fun r => r.success) = false := by
        cases hv : results.all fun r => r.success with
        | false => rfl
        | true => rw [hv] at h; exact absurd h (by simp)
      refine ⟨?_, ?_, ?_⟩
      · rw [hstream2]
        unfold hasExecutionError stepStartEvents resultEvents
        simp only [List.any_cons, List.any_append,
          stepStartEventsFrom_any isExecutionErrorEvent (fun _ _ _ => rfl),
          resultEventsGo_execError]
        simp [isExecutionErrorEvent]
      · rw [hstream2]
        unfold hasExecutionComplete stepStartEvents resultEvents
        simp only [List.any_cons, List.any_append,
          stepStartEventsFrom_any isExecutionCompleteEvent (fun _ _ _ => rfl),
          resultEventsGo_execComplete, hall]
        simp [isExecutionCompleteEvent]
      · obtain ⟨pre, sid, n, msg, hp⟩ :=
          resultEventsGo_decomp results.length (results.countP fun r => r.success)
            results hall
        refine ⟨.raw "planning status" ::
          .planGenerated plan.steps.length (estimate_token_usage plan)
            (estimate_execution_time plan) :: (stepStartEvents plan ++ pre),
          sid, n, msg, ?_⟩
        rw [hstream2]
        unfold resultEvents
        rw [hp]
        simp

/-- A concrete instance of the amended C2: the failed one-step stream has no
execution_error and no execution_complete event. -/
theorem c2_witness :
    hasExecutionError (orchestrate_events (.ok
      { version := "1.0",
        steps := [ { id := "t1", task := "run_gemini",
                     params := { prompt := some "hi" }, dependencies := [] } ] })
      [("other.output", "x")] .completed false) = false ∧
    hasExecutionComplete (orchestrate_events (.ok
      { version := "1.0",
        steps := [ { id := "t1", task := "run_gemini",
                     params := { prompt := some "hi" }, dependencies := [] } ] })
      [("other.output", "x")] .completed false) = false := by
  have h := c2_step_error_then_done (.ok
      { version := "1.0",
        steps := [ { id := "t1", task := "run_gemini",
                     params := { prompt := some "hi" }, dependencies := [] } ] })
      [("other.output", "x")] .completed false (by decide)
  exact ⟨h.1, h.2.1⟩

/-- Claim C3: for a plan with distinct step IDs (the validated-plan invariant) and
any final context, result extraction returns exactly the declaration-order result
list: one StepResult per Step, step_number the 1-based declaration index, success
with the stored output exactly when "step_id.output" is present in the context, and
otherwise success = false with the message "Step N (id) did not produce output"
(see specResultsFrom). -/
theorem c3_extract_results_spec (plan : Plan) (ctx : Context)
    (hd : allDistinct (idsOf plan.steps) = true) :
    extract_step_results_from_context plan ctx = specResultsFrom ctx 0 plan.steps :=
  extract_eq_spec plan ctx hd

def c3plan : Plan :=
  { version := "1.0",
    steps := [
      { id := "a", task := "run_gemini", params := { prompt := some "write" },
        dependencies := [] },
      { id := "b", task := "create_file",
        params := { filename := some "out.txt", content_from := some "a.output" },
        dependencies := ["a"] } ] }

/-- A concrete instance of C3: step a produced its output, step b did not. -/
theorem c3_witness :
    extract_step_results_from_context c3plan [("a.output", "out-a")] =
      [ { step_id := "a", step_number := 1, success := true,
          output := some "out-a", error := none },
        { step_id := "b", step_number := 2, success := false, output := none,
          error := some "Step 2 (b) did not produce output" } ] := by
  have h := c3_extract_results_spec c3plan [("a.output", "out-a")] (by decide)
  rw [h]
  decide

/-- Claim C4: a create_file step whose filename contains "..", or starts with a
slash, or contains a NUL byte or any other control character is rejected at both
layers: graph building fails with InvalidPlan, and CreateFileTask::run fails with a
TaskExecutionFailed graph error before reaching the file write (attempted_write is
false and the context is unchanged), whatever the content source, context, working
directory and file system behavior. -/
theorem c4_bad_filename_rejected_both_layers (plan : Plan) (s : Step)
    (hs : s ∈ plan.steps) (htask : s.task = "create_file") (f : String)
    (hf : s.params.filename = some f) (hbad : filenameBad f = true) :
    (∃ m, build_graph_from_plan plan = .error (.invalidPlan m)) ∧
    (∀ (cf dc : Option String) (ctx : Context) (wd : Option String)
        (write : String → Option String → Except String String),
      (∃ m, (createFileTask_run s.id f cf dc ctx wd write).result
          = .error (.taskExecutionFailed m)) ∧
      (createFileTask_run s.id f cf dc ctx wd write).attempted_write = false ∧
      (createFileTask_run s.id f cf dc ctx wd write).ctx = ctx) := by
  constructor
  · have hnotok : ∀ g, build_graph_from_plan plan ≠ .ok g := by
      intro g hg
      unfold build_graph_from_plan at hg
      cases hv : plan.validate with
      | error msg => rw [hv] at hg; exact Except.noConfusion hg
      | ok u =>
        cases u
        obtain ⟨_, _, _, _, _, hhyg⟩ := validate_ok_facts plan hv
        rw [List.all_eq_true] at hhyg
        have hstep := hhyg s hs
        unfold filenameHygieneOk at hstep
        simp [htask, hf, hbad] at hstep
    cases hres : build_graph_from_plan plan with
    | ok g => exact absurd hres (hnotok g)
    | error e =>
      obtain ⟨m, hm⟩ := build_error_is_invalidPlan plan e hres
      exact ⟨m, by rw [hm]⟩
  · intro cf dc ctx wd write
    unfold createFileTask_run
    cases ht : filenameTraversal f with
    | true =>
      rw [if_pos rfl]
      exact ⟨⟨_, rfl⟩, rfl, rfl⟩
    | false =>
      have hc : filenameControl f = true := by
        unfold filenameBad at hbad
        rw [ht] at hbad
        simpa using hbad
      rw [if_neg (by simp), hc, if_pos rfl]
      exact ⟨⟨_, rfl⟩, rfl, rfl⟩

def c4step : Step :=
  { id := "w1", task := "create_file",
    params := { filename := some "../etc/passwd", content_from := some "w0.output" },
    dependencies := ["w0"] }

def c4plan : Plan :=
  { version := "1.0",
    steps := [
      { id := "w0", task := "run_gemini", params := { prompt := some "text" },
        dependencies := [] },
      c4step ] }

/-- A concrete instance of C4 at filename "../etc/passwd". -/
theorem c4_witness :
    (∃ m, build_graph_from_plan c4plan = .error (.invalidPlan m)) ∧
    (createFileTask_run "w1" "../etc/passwd" (some "w0.output") none
        [("w0.output", "text")] none (fun _ _ => .ok "/tmp/passwd")).attempted_write
      = false := by
  have h := c4_bad_filename_rejected_both_layers c4plan c4step (by decide) rfl
    "../etc/passwd" rfl (by decide)
  exact ⟨h.1, (h.2 (some "w0.output") none [("w0.output", "text")] none
    (fun _ _ => .ok "/tmp/passwd")).2.1⟩

/-- RunGeminiTask::run either fails leaving the context unchanged, or succeeds and
writes exactly its own output key with the Gemini result. -/
theorem runGeminiTask_run_spec (sid prompt : String) (ctx : Context)
    (gemini : String → Except String String) :
    (∃ m, gemini prompt = .error m ∧
      (runGeminiTask_run sid prompt ctx gemini).result
        = .error (.taskExecutionFailed
            ("Gemini execution failed in step \x27" ++ sid ++ "\x27: " ++ m)) ∧
      (runGeminiTask_run sid prompt ctx gemini).ctx = ctx) ∨
    (∃ v, gemini prompt = .ok v ∧
      (runGeminiTask_run sid prompt ctx gemini).result = .ok (some v, .continueNext) ∧
      (runGeminiTask_run sid prompt ctx gemini).ctx = ctxSet ctx (outputKey sid) v) := by
  unfold runGeminiTask_run
  cases hg : gemini prompt with
  | error m => exact Or.inl ⟨m, rfl, rfl, rfl⟩
  | ok v => exact Or.inr ⟨v, rfl, rfl, rfl⟩

/-- CreateFileTask::run either fails leaving the context unchanged, or succeeds
after a successful write and writes exactly its own output key with the path. -/
theorem createFileTask_run_spec (sid filename : String) (cf dc : Option String)
    (ctx : Context) (wd : Option String)
    (write : String → Option String → Except String String) :
    ((∃ m, (createFileTask_run sid filename cf dc ctx wd write).result
        = .error (.taskExecutionFailed m)) ∧
      (createFileTask_run sid filename cf dc ctx wd write).ctx = ctx) ∨
    (∃ content v, write content (resolveWorkingDir ctx wd) = .ok v ∧
      (createFileTask_run sid filename cf dc ctx wd write).result
        = .ok (some v, .continueNext) ∧
      (createFileTask_run sid filename cf dc ctx wd write).ctx
        = ctxSet ctx (outputKey sid) v) := by
  unfold createFileTask_run createFileWriteAndStore
  cases ht : filenameTraversal filename with
  | true =>
    rw [if_pos rfl]
    exact Or.inl ⟨⟨_, rfl⟩, rfl⟩
  | false =>
    rw [if_neg (by simp)]
    cases hc : filenameControl filename with
    | true =>
      rw [if_pos rfl]
      exact Or.inl ⟨⟨_, rfl⟩, rfl⟩
    | false =>
      rw [if_neg (by simp)]
      cases hr : resolveContent sid cf dc ctx with
      | error e =>
        cases e with
        | taskExecutionFailed m => exact Or.inl ⟨⟨m, rfl⟩, rfl⟩
      | ok content =>
        dsimp only
        cases hw : write content (resolveWorkingDir ctx wd) with
        | error e2 => exact Or.inl ⟨⟨_, rfl⟩, rfl⟩
        | ok v => exact Or.inr ⟨content, v, hw, rfl, rfl⟩

/-- Claim C5: for both task kinds, the "step_id.output" context key is written only
on the success path, carrying the value the side effect (Gemini call or file write)
succeeded with; whenever run returns an error the context comes back unchanged (the
output key is not set); a run writes at most the single key owned by its step. -/
theorem c5_output_written_only_on_success (sid1 prompt sid2 filename : String)
    (cf dc : Option String) (ctx : Context) (wd : Option String)
    (gemini : String → Except String String)
    (write : String → Option String → Except String String) :
    ((∃ e, (runGeminiTask_run sid1 prompt ctx gemini).result = .error e) →
      (runGeminiTask_run sid1 prompt ctx gemini).ctx = ctx) ∧
    (∀ out act, (runGeminiTask_run sid1 prompt ctx gemini).result = .ok (out, act) →
      ∃ v, gemini prompt = .ok v ∧ out = some v ∧
        (runGeminiTask_run sid1 prompt ctx gemini).ctx = ctxSet ctx (outputKey sid1) v) ∧
    ((∃ e, (createFileTask_run sid2 filename cf dc ctx wd write).result = .error e) →
      (createFileTask_run sid2 filename cf dc ctx wd write).ctx = ctx) ∧
    (∀ out act,
      (createFileTask_run sid2 filename cf dc ctx wd write).result = .ok (out, act) →
      ∃ content v, write content (resolveWorkingDir ctx wd) = .ok v ∧ out = some v ∧
        (createFileTask_run sid2 filename cf dc ctx wd write).ctx
          = ctxSet ctx (outputKey sid2) v) := by
  refine ⟨?_, ?_, ?_, ?_⟩
  · rcases runGeminiTask_run_spec sid1 prompt ctx gemini with
      ⟨m, _, _, hctx⟩ | ⟨v, _, hres, _⟩
    · intro _; exact hctx
    · rintro ⟨e, he⟩
      rw [hres] at he
      exact Except.noConfusion he
  · rcases runGeminiTask_run_spec sid1 prompt ctx gemini with
      ⟨m, _, hres, _⟩ | ⟨v, hg, hres, hctx⟩
    · intro out act h
      rw [hres] at h
      exact Except.noConfusion h
    · intro out act h
      rw [hres] at h
      injection h with h2
      injection h2 with h3 h4
      exact ⟨v, hg, h3.symm, hctx⟩
  · rcases createFileTask_run_spec sid2 filename cf dc ctx wd write with
      ⟨_, hctx⟩ | ⟨content, v, _, hres, _⟩
    · intro _; exact hctx
    · rintro ⟨e, he⟩
      rw [hres] at he
      exact Except.noConfusion he
  · rcases createFileTask_run_spec sid2 filename cf dc ctx wd write with
      ⟨⟨m, hres⟩, _⟩ | ⟨content, v, hw, hres, hctx⟩
    · intro out act h
      rw [hres] at h
      exact Except.noConfusion h
    · intro out act h
      rw [hres] at h
      injection h with h2
      injection h2 with h3 h4
      exact ⟨content, v, hw, h3.symm, hctx⟩

/-- A concrete instance of C5: a failed Gemini call leaves the context unchanged;
a successful file write sets exactly the output key of the task to the written
path. -/
theorem c5_witness :
    (runGeminiTask_run "g1" "p" [("k", "v")] (fun _ => .error "boom")).ctx
      = [("k", "v")] ∧
    (createFileTask_run "f1" "ok.txt" none (some "body") [("k", "v")] none
        (fun _ _ => .ok "/w/ok.txt")).ctx
      = ctxSet [("k", "v")] (outputKey "f1") "/w/ok.txt" := by
  have h := c5_output_written_only_on_success "g1" "p" "f1" "ok.txt" none
    (some "body") [("k", "v")] none (fun _ => .error "boom")
    (fun _ _ => .ok "/w/ok.txt")
  refine ⟨h.1 ⟨_, rfl⟩, ?_⟩
  obtain ⟨content, v, hw, hout, hctx⟩ :=
    h.2.2.2 (some "/w/ok.txt") .continueNext rfl
  injection hout with h9
  rw [← h9] at hctx
  exact hctx

/-- With both planning attempts failing on a transport error (an Internal error),
internal_run_planner surfaces that Internal error itself after exactly two
attempts; the surfaced error is not PlanningFailed, against the claim. -/
theorem c6_counterexample :
    (internal_run_planner "write a poem"
        fun _ _ => .error (.internal "transport error")).1
      = .error (.internal "transport error") ∧
    (internal_run_planner "write a poem"
        fun _ _ => .error (.internal "transport error")).2 = 2 ∧
    isPlanningFailedResult (internal_run_planner "write a poem"
        fun _ _ => .error (.internal "transport error")).1 = false := by
  refine ⟨rfl, rfl, rfl⟩

/-- Claim C6 (amended): internal_run_planner calls try_plan_once on the meta-prompt
built from the goal; if the first attempt succeeds that plan is returned after one
attempt; otherwise exactly one retry is made with the same meta-prompt — never a
third attempt — and the outcome of the retry (its plan, or its error unwrapped, not
PlanningFailed) is returned. -/
theorem c6_retry_exactly_once (goal : String)
    (try_plan_once : String → Nat → Except AppError Plan) :
    (internal_run_planner goal try_plan_once).2 ≤ 2 ∧
    (∀ p, try_plan_once (build_meta_prompt goal) 0 = .ok p →
      internal_run_planner goal try_plan_once = (.ok p, 1)) ∧
    (∀ e, try_plan_once (build_meta_prompt goal) 0 = .error e →
      internal_run_planner goal try_plan_once
        = (try_plan_once (build_meta_prompt goal) 1, 2)) := by
  refine ⟨?_, ?_, ?_⟩
  · unfold internal_run_planner
    cases try_plan_once (build_meta_prompt goal) 0 with
    | ok p => exact Nat.le_succ 1
    | error e =>
      cases try_plan_once (build_meta_prompt goal) 1 with
      | ok p => exact Nat.le_refl 2
      | error e2 => exact Nat.le_refl 2
  · intro p hp
    unfold internal_run_planner
    rw [hp]
  · intro e he
    unfold internal_run_planner
    rw [he]
    cases try_plan_once (build_meta_prompt goal) 1 with
    | ok p => rfl
    | error e2 => rfl

/-- A concrete instance of C6: first attempt fails with a parse error
(InvalidPlan), the retry succeeds; the result is the plan of the retry after exactly two
attempts. -/
theorem c6_witness :
    internal_run_planner "make a file"
        (fun _ n => if n = 0 then .error (.invalidPlan "parse failure")
                    else .ok { version := "1.0", steps := [] })
      = (.ok { version := "1.0", steps := [] }, 2) := by
  have h := (c6_retry_exactly_once "make a file"
    (fun _ n => if n = 0 then .error (.invalidPlan "parse failure")
                else .ok { version := "1.0", steps := [] })).2.2
    (.invalidPlan "parse failure") rfl
  rw [h]
  decide

/-- Claim C7: a plan accepted by the graph builder has a dependency-free step, and
the chosen start node is the first such step in declaration order (the find?
result); for a non-empty plan in which every step has at least one dependency,
graph building fails with InvalidPlan (such a dependency relation cannot pass the
validator: it has an unresolved reference or a cycle), rather than selecting some
other step through the find_start_step_id fallback. -/
theorem c7_start_node_selection (plan : Plan) :
    (∀ g, build_graph_from_plan plan = .ok g →
      ∃ s, (plan.steps.find? fun st => st.dependencies.isEmpty) = some s ∧
        g.start = s.id) ∧
    (plan.steps ≠ [] → (plan.steps.all fun s => !s.dependencies.isEmpty) = true →
      ∃ m, build_graph_from_plan plan = .error (.invalidPlan m)) := by
  constructor
  · intro g hg
    unfold build_graph_from_plan at hg
    cases hv : plan.validate with
    | error msg => rw [hv] at hg; exact Except.noConfusion hg
    | ok u =>
      cases u
      rw [hv] at hg
      obtain ⟨hne, _, _, _, hac, _⟩ := validate_ok_facts plan hv
      rw [hne] at hg
      simp only [Bool.false_eq_true, if_false] at hg
      have hnil : plan.steps ≠ [] := by
        intro hx
        rw [hx] at hne
        simp at hne
      obtain ⟨s0, hs0mem, hs0dep⟩ :=
        acyclic_nonempty_has_source plan.steps hnil hac
      have hfind : ∃ s, (plan.steps.find? fun st => st.dependencies.isEmpty)
          = some s := by
        cases hf : plan.steps.find? fun st => st.dependencies.isEmpty with
        | some s => exact ⟨s, rfl⟩
        | none =>
          exfalso
          have := List.find?_eq_none.mp hf s0 hs0mem
          exact this hs0dep
      obtain ⟨s, hs⟩ := hfind
      refine ⟨s, hs, ?_⟩
      cases hb : buildTasks plan.steps [] with
      | error e => rw [hb] at hg; exact Except.noConfusion hg
      | ok tasks =>
        rw [hb] at hg
        have hstart : find_start_step_id plan = some s.id := by
          unfold find_start_step_id
          rw [hs]
        rw [hstart] at hg
        have := (Except.ok.injEq _ _).mp hg
        rw [← this]
  · intro hne hall
    cases hres : build_graph_from_plan plan with
    | error e =>
      obtain ⟨m, hm⟩ := build_error_is_invalidPlan plan e hres
      exact ⟨m, by rw [hm]⟩
    | ok g =>
      exfalso
      unfold build_graph_from_plan at hres
      cases hv : plan.validate with
      | error msg => rw [hv] at hres; exact Except.noConfusion hres
      | ok u =>
        cases u
        obtain ⟨_, _, _, _, hac, _⟩ := validate_ok_facts plan hv
        obtain ⟨s0, hs0mem, hs0dep⟩ :=
          acyclic_nonempty_has_source plan.steps hne hac
        rw [List.all_eq_true] at hall
        have := hall s0 hs0mem
        rw [hs0dep] at this
        exact absurd this (by simp)

def c7plan : Plan :=
  { version := "1.0",
    steps := [
      { id := "p1", task := "run_gemini", params := { prompt := some "alpha" },
        dependencies := ["p2"] },
      { id := "p2", task := "run_gemini", params := { prompt := some "beta" },
        dependencies := ["p1"] } ] }

/-- A concrete instance of C7: in a two-step plan where every step has a
dependency (a 2-cycle), graph building fails with InvalidPlan. -/
theorem c7_witness :
    ∃ m, build_graph_from_plan c7plan = .error (.invalidPlan m) := by
  exact (c7_start_node_selection c7plan).2 (by decide) (by decide)

/-- The per-step cost the claim asserts: ceiling of 1.3 times the prompt length
plus 100 for run_gemini, 50 for create_file, 100 otherwise. -/
def claimStepTokenCost (s : Step) : Nat :=
  if s.task == "run_gemini" then
    (13 * (s.params.prompt.getD "").length + 9) / 10 + 100
  else if s.task == "create_file" then 50
  else 100

def claimTokenEstimate (plan : Plan) : Nat := (plan.steps.map claimStepTokenCost).sum

/-- A one-step plan with the three-byte prompt "abc": the code computes
(3 as f64 * 1.3) as usize + 100 = 103 (3.0 * 1.3 = 3.9000000000000004 in f64,
truncated to 3), while the claimed ceiling formula gives 13*3/10 rounded up
+ 100 = 104. -/
theorem c8_counterexample :
    estimate_token_usage
      { version := "1.0",
        steps := [ { id := "e1", task := "run_gemini",
                     params := { prompt := some "abc" }, dependencies := [] } ] }
      = 103 ∧
    claimTokenEstimate
      { version := "1.0",
        steps := [ { id := "e1", task := "run_gemini",
                     params := { prompt := some "abc" }, dependencies := [] } ] }
      = 104 := by
  exact ⟨by decide, by decide⟩

theorem foldl_add_stepTokenCost :
    ∀ (steps : List Step) (acc : Nat),
      steps.foldl (fun total s => total + stepTokenCost s) acc
        = acc + (steps.map stepTokenCost).sum := by
  intro steps
  induction steps with
  | nil => intro acc; simp
  | cons s rest ih =>
    intro acc
    simp only [List.foldl_cons, List.map_cons, List.sum_cons]
    rw [ih (acc + stepTokenCost s)]
    omega

/-- Claim C8 (amended): estimate_token_usage is the sum over all steps of a
per-step cost that is, for a run_gemini step with a prompt, the f64 value of
1.3 times the prompt byte length truncated toward zero, plus 100 (and 0 for a
run_gemini step without a prompt); 50 for create_file; 100 for any other task
kind. -/
theorem c8_token_estimate_sum (plan : Plan) :
    estimate_token_usage plan = (plan.steps.map stepTokenCost).sum := by
  unfold estimate_token_usage
  rw [foldl_add_stepTokenCost plan.steps 0]
  omega

/-- A concrete instance of the amended C8 on a three-step plan:
2 + 100 for prompt "hi", 50 for the create_file step, 100 for an unknown task. -/
theorem c8_witness :
    estimate_token_usage
      { version := "1.0",
        steps := [
          { id := "u1", task := "run_gemini", params := { prompt := some "hi" },
            dependencies := [] },
          { id := "u2", task := "create_file",
            params := { filename := some "f.txt", content_from := some "u1.output" },
            dependencies := ["u1"] },
          { id := "u3", task := "mystery", params := {}, dependencies := [] } ] }
      = 252 := by
  have h := c8_token_estimate_sum
    { version := "1.0",
      steps := [
        { id := "u1", task := "run_gemini", params := { prompt := some "hi" },
          dependencies := [] },
        { id := "u2", task := "create_file",
          params := { filename := some "f.txt", content_from := some "u1.output" },
          dependencies := ["u1"] },
        { id := "u3", task := "mystery", params := {}, dependencies := [] } ] }
  rw [h]
  decide

/-- Claim C9: the response dispatch of BridgeSession::send_message returns the data
field on status "success", the message field as the error on status "error", and a
protocol error naming the unexpected status on any other value. -/
theorem c9_bridge_response_dispatch (r : BridgeResponse) :
    (∀ d, r.status = "success" → r.data = some d → handleBridgeResponse r = .ok d) ∧
    (∀ m, r.status = "error" → r.message = some m →
      handleBridgeResponse r = .error m) ∧
    (r.status ≠ "success" → r.status ≠ "error" →
      handleBridgeResponse r
        = .error ("Unexpected response status: " ++ r.status)) := by
  refine ⟨?_, ?_, ?_⟩
  · intro d hs hd
    unfold handleBridgeResponse
    rw [hs, hd]
    rfl
  · intro m hs hm
    unfold handleBridgeResponse
    rw [hs, hm]
    rfl
  · intro hs he
    unfold handleBridgeResponse
    rw [if_neg (by simpa using hs), if_neg (by simpa using he)]

/-- A concrete instance of C9, one response per status shape. -/
theorem c9_witness :
    handleBridgeResponse { status := "success", data := some "result text" }
      = .ok "result text" ∧
    handleBridgeResponse { status := "error", message := some "quota exceeded" }
      = .error "quota exceeded" ∧
    handleBridgeResponse { status := "weird" }
      = .error "Unexpected response status: weird" := by
  refine ⟨?_, ?_, ?_⟩
  · exact (c9_bridge_response_dispatch
      { status := "success", data := some "result text" }).1 "result text" rfl rfl
  · exact (c9_bridge_response_dispatch
      { status := "error", message := some "quota exceeded" }).2.1
      "quota exceeded" rfl rfl
  · exact (c9_bridge_response_dispatch { status := "weird" }).2.2
      (by decide) (by decide)

theorem except_bind_ok {ε α β : Type} (a : α) (f : α → Except ε β) :
    (Except.ok a >>= f) = f a := rfl

theorem except_bind_error {ε α β : Type} (e : ε) (f : α → Except ε β) :
    ((Except.error e : Except ε α) >>= f) = Except.error e := rfl

theorem applyMaxParallel_ok (c c2 : OrchestratorConfig) (o : Option Nat)
    (h : applyMaxParallel c o = .ok c2) :
    o ≠ some 0 ∧
    c2 = { c with max_parallel_tasks := o.getD c.max_parallel_tasks } := by
  cases o with
  | none => exact ⟨by simp, (Except.ok.inj h).symm⟩
  | some n =>
    cases n with
    | zero => exact absurd h (by simp [applyMaxParallel])
    | succ k => exact ⟨by simp, (Except.ok.inj h).symm⟩

theorem applyGeminiModel_ok (c c2 : OrchestratorConfig) (o : Option String)
    (h : applyGeminiModel c o = .ok c2) :
    o ≠ some "" ∧ c2 = { c with gemini_model := o.getD c.gemini_model } := by
  cases o with
  | none => exact ⟨by simp, (Except.ok.inj h).symm⟩
  | some m =>
    by_cases hm : m = ""
    · rw [hm] at h
      exact absurd h (by simp [applyGeminiModel])
    · have hb : (m == "") = false := beq_eq_false_iff_ne.mpr hm
      unfold applyGeminiModel at h
      simp only [hb, Bool.false_eq_true, if_false] at h
      exact ⟨by simpa using hm, (Except.ok.inj h).symm⟩

theorem applyMaxGoalLength_ok (c c2 : OrchestratorConfig) (o : Option Nat)
    (h : applyMaxGoalLength c o = .ok c2) :
    o ≠ some 0 ∧ c2 = { c with max_goal_length := o.getD c.max_goal_length } := by
  cases o with
  | none => exact ⟨by simp, (Except.ok.inj h).symm⟩
  | some n =>
    cases n with
    | zero => exact absurd h (by simp [applyMaxGoalLength])
    | succ k => exact ⟨by simp, (Except.ok.inj h).symm⟩

theorem applyPlanTimeout_ok (c c2 : OrchestratorConfig) (o : Option Nat)
    (h : applyPlanTimeout c o = .ok c2) :
    o ≠ some 0 ∧ c2 = { c with plan_timeout_secs := o.getD c.plan_timeout_secs } := by
  cases o with
  | none => exact ⟨by simp, (Except.ok.inj h).symm⟩
  | some n =>
    cases n with
    | zero => exact absurd h (by simp [applyPlanTimeout])
    | succ k => exact ⟨by simp, (Except.ok.inj h).symm⟩

/-- Decomposition of a successful validate_and_apply_config_update into the four
field applications. -/
theorem config_update_ok_decomp (c cfg : OrchestratorConfig)
    (r : ConfigUpdateRequest) (h : validate_and_apply_config_update c r = .ok cfg) :
    ∃ c1 c2 c3, applyMaxParallel c r.max_parallel_tasks = .ok c1 ∧
      applyGeminiModel c1 r.gemini_model = .ok c2 ∧
      applyMaxGoalLength c2 r.max_goal_length = .ok c3 ∧
      applyPlanTimeout c3 r.plan_timeout_secs = .ok cfg := by
  unfold validate_and_apply_config_update at h
  cases h1 : applyMaxParallel c r.max_parallel_tasks with
  | error e => rw [h1, except_bind_error] at h; exact Except.noConfusion h
  | ok c1 =>
    rw [h1, except_bind_ok] at h
    cases h2 : applyGeminiModel c1 r.gemini_model with
    | error e => rw [h2, except_bind_error] at h; exact Except.noConfusion h
    | ok c2 =>
      rw [h2, except_bind_ok] at h
      cases h3 : applyMaxGoalLength c2 r.max_goal_length with
      | error e => rw [h3, except_bind_error] at h; exact Except.noConfusion h
      | ok c3 => exact ⟨c1, c2, c3, rfl, h2, h3, by rw [h3, except_bind_ok] at h; exact h⟩

/-- Claim C10 (amended): the update endpoint validates each provided field (zero
integers and an empty model name are rejected) and its response reflects the
updated fields applied over the defaults, unspecified fields keeping the default
values; but the update is not persisted: a subsequent configuration read
(get_config) returns the defaults unconditionally. -/
theorem c10_config_update_not_persisted (r : ConfigUpdateRequest) :
    (∀ cfg, update_config r = .ok cfg →
      r.max_parallel_tasks ≠ some 0 ∧ r.gemini_model ≠ some "" ∧
      r.max_goal_length ≠ some 0 ∧ r.plan_timeout_secs ≠ some 0 ∧
      cfg.max_parallel_tasks
        = r.max_parallel_tasks.getD OrchestratorConfig.default.max_parallel_tasks ∧
      cfg.gemini_model = r.gemini_model.getD OrchestratorConfig.default.gemini_model ∧
      cfg.max_goal_length
        = r.max_goal_length.getD OrchestratorConfig.default.max_goal_length ∧
      cfg.plan_timeout_secs
        = r.plan_timeout_secs.getD OrchestratorConfig.default.plan_timeout_secs) ∧
    get_config = OrchestratorConfig.default := by
  refine ⟨?_, rfl⟩
  intro cfg h
  obtain ⟨c1, c2, c3, h1, h2, h3, h4⟩ :=
    config_update_ok_decomp OrchestratorConfig.default cfg r h
  obtain ⟨hn1, he1⟩ := applyMaxParallel_ok _ _ _ h1
  obtain ⟨hn2, he2⟩ := applyGeminiModel_ok _ _ _ h2
  obtain ⟨hn3, he3⟩ := applyMaxGoalLength_ok _ _ _ h3
  obtain ⟨hn4, he4⟩ := applyPlanTimeout_ok _ _ _ h4
  subst he1 he2 he3 he4
  exact ⟨hn1, hn2, hn3, hn4, rfl, rfl, rfl, rfl⟩

/-- A successful update of max_parallel_tasks to 5 is reflected in the response
of the update itself, but a subsequent read (get_config) still returns 10:
the claimed read-back of updated values fails. -/
theorem c10_counterexample :
    update_config { max_parallel_tasks := some 5 }
      = .ok { OrchestratorConfig.default with max_parallel_tasks := 5 } ∧
    get_config.max_parallel_tasks = 10 ∧
    get_config.max_parallel_tasks ≠ 5 := by
  refine ⟨by decide, by decide, by decide⟩

/-- A concrete instance of the amended C10: a mixed update is validated and
reflected in the response, while get_config keeps returning the defaults. -/
theorem c10_witness :
    (∀ cfg, update_config
        { max_parallel_tasks := some 4, gemini_model := some "gemini-2.0-pro" }
        = .ok cfg →
      cfg.max_parallel_tasks = 4 ∧ cfg.gemini_model = "gemini-2.0-pro" ∧
      cfg.max_goal_length = 10000 ∧ cfg.plan_timeout_secs = 300) ∧
    get_config = OrchestratorConfig.default := by
  have h := c10_config_update_not_persisted
    { max_parallel_tasks := some 4, gemini_model := some "gemini-2.0-pro" }
  refine ⟨?_, h.2⟩
  intro cfg hc
  obtain ⟨_, _, _, _, h5, h6, h7, h8⟩ := h.1 cfg hc
  exact ⟨h5, h6, h7, h8⟩

end AgentManager
